import Mathlib

/-!
Verification of the node-expat incremental XML parsing engine and its
stream wrapper. The tokenizer, entity expander, encoding manager and
position tracker are modelled from the specification (the native parser
core is not part of the JavaScript sources); the stream wrapper
(`parse`/`pause`/`resume`/`reset`/`setEncoding`/`setUnknownEncoding`/`getError`)
is embedded directly from `lib/node-expat.js` and its snippet-building
variant.
-/

namespace NodeExpat

/-- Modelled from the spec: the event vocabulary of section 6 (the native
parser core that emits these events is missing from the sources). Payload
shapes follow the table in section 6 of the spec. -/
inductive XEvent where
  | startElement (name : String) (attrs : List (String × String))
  | endElement (name : String)
  | text (s : String)
  | processingInstruction (target : String) (data : String)
  | comment (s : String)
  | xmlDecl (version : String) (encoding : Option String) (standalone : Bool)
  | startCdata
  | endCdata
  | entityDecl (name : String) (isParameterEntity : Bool) (value : Option String)
      (base : Option String) (systemId : Option String) (publicId : Option String)
      (notationName : Option String)
  | unknownEncoding (name : String)
  | error (msg : String)
  deriving DecidableEq, Repr

/-- `collapseTexts` from the test harness: adjacent text events are merged
into a single logical text event. -/
def collapseGo : List XEvent → String → List XEvent
  | [], t => if t = "" then [] else [XEvent.text t]
  | XEvent.text s :: evs, t => collapseGo evs (t ++ s)
  | ev :: evs, t => (if t = "" then [ev] else [XEvent.text t, ev]) ++ collapseGo evs ""

/-- Merge adjacent text events, as the test harness `collapseTexts` does. -/
def collapseTexts (evs : List XEvent) : List XEvent := collapseGo evs ""

/-- Modelled from the spec: the grammar states of the tokenizer
(section 4.1), with the partial-token accumulators that persist across
`consume` calls. The native tokenizer is missing from the sources. -/
inductive TokState where
  | content
  | sawLt
  | startName (acc : String)
  | inTag (name : String) (attrs : List (String × String))
  | attrName (name : String) (attrs : List (String × String)) (acc : String)
  | attrEq (name : String) (attrs : List (String × String)) (aname : String)
  | attrQuote (name : String) (attrs : List (String × String)) (aname : String)
  | attrValue (name : String) (attrs : List (String × String)) (aname : String)
      (q : Char) (acc : String)
  | emptyTagSlash (name : String) (attrs : List (String × String))
  | endTagStart (acc : String)
  | endTagAfter (name : String)
  | markupDecl (acc : String)
  | commentBody (acc : String) (dashes : Nat)
  | piTarget (acc : String)
  | piBody (target : String) (acc : String) (sawQ : Bool)
  | cdataBody (acc : String) (brackets : Nat)
  | entityRef (acc : String)
  | doctypeName (acc : String)
  | doctypeRest
  | subsetMisc
  | subsetLt
  | subsetKeyword (acc : String)
  | entName (acc : String)
  | entAfterName (name : String)
  | entValue (name : String) (q : Char) (acc : String)
  | entClose (name : String) (value : String)
  | otherDecl
  | subsetEnd
  deriving DecidableEq, Repr

/-- Modelled from the spec: the parser state of sections 3 and 4 —
element stack, entity table, optional caller-supplied 256-entry decode
table, position counters and the terminal error flag. The native parser
object is missing from the sources. -/
structure Parser where
  tok : TokState
  stack : List String
  ents : List (String × String)
  table : Option (List Nat)
  line : Nat
  col : Nat
  pos : Nat
  errored : Bool
  deriving DecidableEq, Repr

/-- Modelled from the spec: a freshly constructed parser — empty stack and
tables, line 1, column 0, no byte consumed. -/
def initParser : Parser :=
  { tok := TokState.content, stack := [], ents := [], table := none,
    line := 1, col := 0, pos := 0, errored := false }

def isWs (c : Char) : Bool := c = ' ' || c = '\n' || c = '\t' || c = '\r'

def isNameStartChar (c : Char) : Bool := c.isAlpha || c = '_' || c = ':'

def isNameChar (c : Char) : Bool :=
  isNameStartChar c || c.isDigit || c = '-' || c = '.'

/-- The five predefined XML entities. -/
def builtinEntity (name : String) : Option String :=
  if name = "amp" then some ("&")
  else if name = "lt" then some ("<")
  else if name = "gt" then some (">")
  else if name = "apos" then some ("\x27")
  else if name = "quot" then some ("\x22")
  else none

def digitVal (base : Nat) (c : Char) : Option Nat :=
  let v : Option Nat :=
    if c.isDigit then some (c.toNat - 48)
    else if 'a' ≤ c ∧ c ≤ 'f' then some (c.toNat - 87)
    else if 'A' ≤ c ∧ c ≤ 'F' then some (c.toNat - 55)
    else none
  match v with
  | some n => if n < base then some n else none
  | none => none

def decodeDigits (base : Nat) : List Char → Option Nat → Option Nat
  | [], acc => acc
  | c :: cs, acc =>
    match acc, digitVal base c with
    | some a, some d => decodeDigits base cs (some (a * base + d))
    | _, _ => none

/-- Numeric character references `&#nn;` and `&#xhh;`. -/
def charRef (name : String) : Option String :=
  match name.data with
  | '#' :: 'x' :: ds =>
    match ds, decodeDigits 16 ds (some 0) with
    | _ :: _, some n =>
      if n.isValidChar then some (String.singleton (Char.ofNat n)) else none
    | _, _ => none
  | '#' :: ds =>
    match ds, decodeDigits 10 ds (some 0) with
    | _ :: _, some n =>
      if n.isValidChar then some (String.singleton (Char.ofNat n)) else none
    | _, _ => none
  | _ => none

/-- Lookup in the entity table (first declaration wins, as redeclarations
are never recorded). -/
def lookupEnt (ents : List (String × String)) (name : String) : Option String :=
  (ents.find? (fun e => e.1 = name)).map (fun e => e.2)

/-- Split a buffer at the terminating `;` of an entity reference. -/
def spanRef : List Char → Option (List Char × List Char)
  | [] => none
  | c :: cs =>
    if c = ';' then some ([], cs)
    else
      match spanRef cs with
      | none => none
      | some (n, r) => some (c :: n, r)

/-- Modelled from the spec: recursive, depth-first, left-to-right entity
expansion with an in-progress stack as the cycle guard (section 4.3); the
native expander is missing from the sources. The fuel argument only bounds
the total number of substitution steps and is chosen large enough at every
call site. -/
def expandChars (ents : List (String × String)) :
    Nat → List String → List Char → Option String
  | 0, _, _ => none
  | _ + 1, _, [] => some ""
  | fuel + 1, inProg, c :: cs =>
    if c = '&' then
      match spanRef cs with
      | none => none
      | some (n, rest) =>
        let name := String.mk n
        match builtinEntity name with
        | some s =>
          match expandChars ents fuel inProg rest with
          | none => none
          | some t => some (s ++ t)
        | none =>
          match charRef name with
          | some s =>
            match expandChars ents fuel inProg rest with
            | none => none
            | some t => some (s ++ t)
          | none =>
            if name ∈ inProg then none
            else
              match lookupEnt ents name with
              | none => none
              | some v =>
                match expandChars ents fuel (name :: inProg) v.data with
                | none => none
                | some inner =>
                  match expandChars ents fuel inProg rest with
                  | none => none
                  | some t => some (inner ++ t)
    else
      match expandChars ents fuel inProg cs with
      | none => none
      | some t => some (String.singleton c ++ t)

/-- A substitution-step budget that dominates the worst-case acyclic
expansion size of the declared entity table on the given input. -/
def entFuel (ents : List (String × String)) (cs : List Char) : Nat :=
  (cs.length + 1) *
    Nat.pow (ents.foldl (fun a e => a + e.2.length + 1) 1 + 1) (ents.length + 1)

/-- Resolve a content entity reference: predefined, numeric, or declared
(with full recursive expansion). -/
def resolveRef (ents : List (String × String)) (name : String) : Option String :=
  match builtinEntity name with
  | some s => some s
  | none =>
    match charRef name with
    | some s => some s
    | none =>
      match lookupEnt ents name with
      | some v => expandChars ents (entFuel ents v.data) [name] v.data
      | none => none

/-- Scanner for the pseudo-attributes of an XML declaration
(`version=... encoding=... standalone=...`), run once the declaration has
been fully consumed. -/
def scanPseudoAttrs : Nat → List Char → Option (List (String × String))
  | 0, _ => none
  | fuel + 1, cs =>
    match cs.dropWhile isWs with
    | [] => some []
    | c :: cs' =>
      if isNameStartChar c then
        let nm := (c :: cs').takeWhile isNameChar
        let r1 := ((c :: cs').dropWhile isNameChar).dropWhile isWs
        match r1 with
        | '=' :: r3 =>
          match r3.dropWhile isWs with
          | q :: r4 =>
            if q = '\x22' ∨ q = '\x27' then
              let v := r4.takeWhile (fun d => d ≠ q)
              match r4.dropWhile (fun d => d ≠ q) with
              | _ :: r5 =>
                match scanPseudoAttrs fuel r5 with
                | some xs => some ((String.mk nm, String.mk v) :: xs)
                | none => none
              | [] => none
            else none
          | [] => none
        | _ => none
      else none

/-- Encodings the modelled engine decodes natively. -/
def knownEncodings : List String :=
  ["UTF-8", "UTF-16", "UTF-16BE", "UTF-16LE", "ISO-8859-1", "US-ASCII"]

/-- The single well-formedness error message observed in the tests. -/
def invalidTokenMsg : String := "not well-formed (invalid token)"

/-- Character-list prefix test between strings. -/
def strIsPre (a b : String) : Bool := a.data.isPrefixOf b.data

/-- Modelled from the spec: entering the terminal error state — the
position counters freeze at the offending character (section 4.4) and a
single error event is delivered (section 7). -/
def fail (p : Parser) : Parser × List XEvent :=
  ({ p with errored := true }, [XEvent.error invalidTokenMsg])

def failMsg (p : Parser) (m : String) : Parser × List XEvent :=
  ({ p with errored := true }, [XEvent.error m])

/-- Modelled from the spec: the position tracker (section 4.4) — one
consumed character advances the byte offset, a line feed advances the line
and resets the column, any other character advances the column. -/
def adv (c : Char) (q : Parser) (evs : List XEvent) : Parser × List XEvent :=
  ({ q with pos := q.pos + 1,
            line := if c = '\n' then q.line + 1 else q.line,
            col := if c = '\n' then 0 else q.col + 1 }, evs)

/-- One text event per decoded content character; granularity of text
events is explicitly unspecified and consumers collapse adjacent runs. -/
def textEvents (s : String) : List XEvent :=
  s.data.map (fun ch => XEvent.text (String.singleton ch))

def dashStr : Nat → String
  | 0 => ""
  | 1 => "-"
  | _ => "--"

def bracketStr : Nat → String
  | 0 => ""
  | 1 => "]"
  | _ => "]]"

/-- Close an end tag: the name must match the innermost open element. -/
def closeTag (c : Char) (p : Parser) (name : String) : Parser × List XEvent :=
  match p.stack with
  | [] => fail p
  | top :: rest =>
    if top = name then
      adv c { p with tok := TokState.content, stack := rest } [XEvent.endElement name]
    else fail p

/-- Complete a processing instruction: the target `xml` denotes an XML
declaration, which is a structurally distinct event carrying version,
optional encoding and the standalone flag (default true); an encoding the
engine cannot decode natively synchronously notifies the caller, whose
handler must supply a byte-to-codepoint table or parsing fails with the
distinct unknown-encoding error. -/
def finishPI (h : String → Option (List Nat)) (c : Char) (p : Parser)
    (target : String) (data : String) : Parser × List XEvent :=
  if target = "xml" then
    match scanPseudoAttrs (data.length + 1) data.data with
    | none => fail p
    | some pas =>
      match lookupEnt pas ("version") with
      | none => fail p
      | some ver =>
        let enc := lookupEnt pas ("encoding")
        let sa :=
          match lookupEnt pas ("standalone") with
          | some s => s ≠ "no"
          | none => true
        let evXml := XEvent.xmlDecl ver enc sa
        match enc with
        | none => adv c { p with tok := TokState.content } [evXml]
        | some e =>
          if e ∈ knownEncodings then adv c { p with tok := TokState.content } [evXml]
          else
            match h e with
            | some m =>
              adv c { p with tok := TokState.content, table := some m }
                [evXml, XEvent.unknownEncoding e]
            | none => failMsg p ("unknown encoding")
  else adv c { p with tok := TokState.content } [XEvent.processingInstruction target data]

/-- Modelled from the spec: the grammar state machine / tokenizer of
section 4.1 — one decoded character drives one transition, partial tokens
live in the state's accumulators, and a character that cannot extend any
token of the grammar is a well-formedness error raised immediately. The
native tokenizer is missing from the sources. -/
def stepChar (h : String → Option (List Nat)) (p : Parser) (c : Char) :
    Parser × List XEvent :=
  match p.tok with
  | TokState.content =>
    if c = '<' then adv c { p with tok := TokState.sawLt } []
    else if c = '&' then
      if p.stack.isEmpty then fail p
      else adv c { p with tok := TokState.entityRef "" } []
    else if p.stack.isEmpty then
      if isWs c then adv c p [] else fail p
    else adv c p [XEvent.text (String.singleton c)]
  | TokState.sawLt =>
    if c = '/' then adv c { p with tok := TokState.endTagStart "" } []
    else if c = '?' then adv c { p with tok := TokState.piTarget "" } []
    else if c = '!' then adv c { p with tok := TokState.markupDecl "" } []
    else if isNameStartChar c then
      adv c { p with tok := TokState.startName (String.singleton c) } []
    else fail p
  | TokState.startName acc =>
    if isNameChar c then adv c { p with tok := TokState.startName (acc.push c) } []
    else if isWs c then adv c { p with tok := TokState.inTag acc [] } []
    else if c = '>' then
      adv c { p with tok := TokState.content, stack := acc :: p.stack }
        [XEvent.startElement acc []]
    else if c = '/' then adv c { p with tok := TokState.emptyTagSlash acc [] } []
    else fail p
  | TokState.inTag name attrs =>
    if isWs c then adv c p []
    else if c = '>' then
      adv c { p with tok := TokState.content, stack := name :: p.stack }
        [XEvent.startElement name attrs]
    else if c = '/' then adv c { p with tok := TokState.emptyTagSlash name attrs } []
    else if isNameStartChar c then
      adv c { p with tok := TokState.attrName name attrs (String.singleton c) } []
    else fail p
  | TokState.attrName name attrs acc =>
    if isNameChar c then adv c { p with tok := TokState.attrName name attrs (acc.push c) } []
    else if c = '=' then adv c { p with tok := TokState.attrQuote name attrs acc } []
    else if isWs c then adv c { p with tok := TokState.attrEq name attrs acc } []
    else fail p
  | TokState.attrEq name attrs aname =>
    if isWs c then adv c p []
    else if c = '=' then adv c { p with tok := TokState.attrQuote name attrs aname } []
    else fail p
  | TokState.attrQuote name attrs aname =>
    if isWs c then adv c p []
    else if c = '\x22' ∨ c = '\x27' then
      adv c { p with tok := TokState.attrValue name attrs aname c "" } []
    else fail p
  | TokState.attrValue name attrs aname q acc =>
    if c = q then
      match expandChars p.ents (entFuel p.ents acc.data) [] acc.data with
      | none => fail p
      | some v =>
        if attrs.any (fun a => a.1 = aname) then fail p
        else adv c { p with tok := TokState.inTag name (attrs ++ [(aname, v)]) } []
    else adv c { p with tok := TokState.attrValue name attrs aname q (acc.push c) } []
  | TokState.emptyTagSlash name attrs =>
    if c = '>' then
      adv c { p with tok := TokState.content }
        [XEvent.startElement name attrs, XEvent.endElement name]
    else fail p
  | TokState.endTagStart acc =>
    if acc = "" then
      if isNameStartChar c then
        adv c { p with tok := TokState.endTagStart (String.singleton c) } []
      else fail p
    else if isNameChar c then adv c { p with tok := TokState.endTagStart (acc.push c) } []
    else if c = '>' then closeTag c p acc
    else if isWs c then adv c { p with tok := TokState.endTagAfter acc } []
    else fail p
  | TokState.endTagAfter name =>
    if isWs c then adv c p []
    else if c = '>' then closeTag c p name
    else fail p
  | TokState.markupDecl acc =>
    let acc' := acc.push c
    if acc' = "--" then adv c { p with tok := TokState.commentBody "" 0 } []
    else if acc' = "[CDATA[" then adv c { p with tok := TokState.cdataBody "" 0 } []
    else if acc' = "DOCTYPE" then adv c { p with tok := TokState.doctypeName "" } []
    else if acc' = "-" ∨ strIsPre acc' ("[CDATA[") ∨ strIsPre acc' ("DOCTYPE") then
      adv c { p with tok := TokState.markupDecl acc' } []
    else fail p
  | TokState.commentBody acc dashes =>
    if c = '-' then
      if dashes < 2 then adv c { p with tok := TokState.commentBody acc (dashes + 1) } []
      else fail p
    else if c = '>' then
      if dashes = 2 then adv c { p with tok := TokState.content } [XEvent.comment acc]
      else adv c { p with tok := TokState.commentBody ((acc ++ dashStr dashes).push '>') 0 } []
    else
      if dashes = 2 then fail p
      else adv c { p with tok := TokState.commentBody ((acc ++ dashStr dashes).push c) 0 } []
  | TokState.piTarget acc =>
    if acc = "" then
      if isNameStartChar c then
        adv c { p with tok := TokState.piTarget (String.singleton c) } []
      else fail p
    else if isNameChar c then adv c { p with tok := TokState.piTarget (acc.push c) } []
    else if isWs c then adv c { p with tok := TokState.piBody acc "" false } []
    else if c = '?' then adv c { p with tok := TokState.piBody acc "" true } []
    else fail p
  | TokState.piBody target acc sawQ =>
    if sawQ then
      if c = '>' then finishPI h c p target acc
      else if c = '?' then adv c { p with tok := TokState.piBody target (acc.push '?') true } []
      else adv c { p with tok := TokState.piBody target ((acc.push '?').push c) false } []
    else if c = '?' then adv c { p with tok := TokState.piBody target acc true } []
    else adv c { p with tok := TokState.piBody target (acc.push c) false } []
  | TokState.cdataBody acc brackets =>
    if c = ']' then
      if brackets < 2 then adv c { p with tok := TokState.cdataBody acc (brackets + 1) } []
      else adv c { p with tok := TokState.cdataBody (acc.push ']') 2 } []
    else if c = '>' ∧ brackets = 2 then
      adv c { p with tok := TokState.content }
        ([XEvent.startCdata] ++ textEvents acc ++ [XEvent.endCdata])
    else adv c { p with tok := TokState.cdataBody ((acc ++ bracketStr brackets).push c) 0 } []
  | TokState.entityRef acc =>
    if c = ';' then
      if acc = "" then fail p
      else
        match resolveRef p.ents acc with
        | none => fail p
        | some s => adv c { p with tok := TokState.content } (textEvents s)
    else if isNameChar c ∨ c = '#' then
      adv c { p with tok := TokState.entityRef (acc.push c) } []
    else fail p
  | TokState.doctypeName acc =>
    if isWs c then
      if acc = "" then adv c p [] else adv c { p with tok := TokState.doctypeRest } []
    else if acc = "" then
      if isNameStartChar c then
        adv c { p with tok := TokState.doctypeName (String.singleton c) } []
      else fail p
    else if isNameChar c then adv c { p with tok := TokState.doctypeName (acc.push c) } []
    else if c = '[' then adv c { p with tok := TokState.subsetMisc } []
    else if c = '>' then adv c { p with tok := TokState.content } []
    else fail p
  | TokState.doctypeRest =>
    if c = '[' then adv c { p with tok := TokState.subsetMisc } []
    else if c = '>' then adv c { p with tok := TokState.content } []
    else adv c p []
  | TokState.subsetMisc =>
    if isWs c then adv c p []
    else if c = '<' then adv c { p with tok := TokState.subsetLt } []
    else if c = ']' then adv c { p with tok := TokState.subsetEnd } []
    else fail p
  | TokState.subsetLt =>
    if c = '!' then adv c { p with tok := TokState.subsetKeyword "" } []
    else fail p
  | TokState.subsetKeyword acc =>
    if c.isAlpha then adv c { p with tok := TokState.subsetKeyword (acc.push c) } []
    else if isWs c then
      if acc = "ENTITY" then adv c { p with tok := TokState.entName "" } []
      else if acc = "ELEMENT" ∨ acc = "ATTLIST" ∨ acc = "NOTATION" then
        adv c { p with tok := TokState.otherDecl } []
      else fail p
    else fail p
  | TokState.entName acc =>
    if isWs c then
      if acc = "" then adv c p []
      else adv c { p with tok := TokState.entAfterName acc } []
    else if acc = "" then
      if isNameStartChar c then
        adv c { p with tok := TokState.entName (String.singleton c) } []
      else fail p
    else if isNameChar c then adv c { p with tok := TokState.entName (acc.push c) } []
    else fail p
  | TokState.entAfterName name =>
    if isWs c then adv c p []
    else if c = '\x22' ∨ c = '\x27' then
      adv c { p with tok := TokState.entValue name c "" } []
    else fail p
  | TokState.entValue name q acc =>
    if c = q then adv c { p with tok := TokState.entClose name acc } []
    else adv c { p with tok := TokState.entValue name q (acc.push c) } []
  | TokState.entClose name value =>
    if isWs c then adv c p []
    else if c = '>' then
      adv c
        { p with tok := TokState.subsetMisc,
                 ents := if (lookupEnt p.ents name).isSome then p.ents
                         else p.ents ++ [(name, value)] }
        [XEvent.entityDecl name false (some value) none none none none]
    else fail p
  | TokState.otherDecl =>
    if c = '>' then adv c { p with tok := TokState.subsetMisc } []
    else adv c p []
  | TokState.subsetEnd =>
    if isWs c then adv c p []
    else if c = '>' then adv c { p with tok := TokState.content } []
    else fail p

/-- Modelled from the spec: once in the terminal error state every further
character is a no-op until reset (section 4.5). -/
def feedChar (h : String → Option (List Nat)) (p : Parser) (c : Char) :
    Parser × List XEvent :=
  if p.errored then (p, []) else stepChar h p c

/-- Feed a buffer of decoded characters one at a time. -/
def feed (h : String → Option (List Nat)) (p : Parser) :
    List Char → Parser × List XEvent
  | [] => (p, [])
  | c :: cs =>
    match feedChar h p c with
    | (p1, evs) =>
      match feed h p1 cs with
      | (p2, evs2) => (p2, evs ++ evs2)

/-- `write` of one text chunk: feed its characters. -/
def writeStr (h : String → Option (List Nat)) (p : Parser) (s : String) :
    Parser × List XEvent :=
  feed h p s.data

/-- Feed a sequence of chunks one `write` at a time. -/
def writeAll (h : String → Option (List Nat)) (p : Parser) :
    List String → Parser × List XEvent
  | [] => (p, [])
  | s :: ss =>
    match writeStr h p s with
    | (p1, evs) =>
      match writeAll h p1 ss with
      | (p2, evs2) => (p2, evs ++ evs2)

/-- Concatenation of a chunk sequence into the whole document. -/
def concatChunks : List String → String
  | [] => ""
  | s :: ss => s ++ concatChunks ss

/-- Modelled from the spec: `reset()` reinitializes every piece of state
to its construction-time defaults so the same parser object can process a
second, unrelated document (section 4.5). -/
def reset (_ : Parser) : Parser := initParser

/-- Modelled from the spec: the position-tracker accessors of section 4.4,
surfaced by the wrapper's `getCurrentLineNumber`. -/
def getCurrentLineNumber (p : Parser) : Nat := p.line

/-- Modelled from the spec: 0-based column, reset on line feed. -/
def getCurrentColumnNumber (p : Parser) : Nat := p.col

/-- Modelled from the spec: absolute byte offset, -1 before any byte has
been consumed at all, even across an empty-input parse call. -/
def getCurrentByteIndex (p : Parser) : Int :=
  if p.pos = 0 then -1 else (p.pos : Int)

/-- Modelled from the spec: the encoding table manager (section 4.2) — a
raw byte decodes through the caller-supplied 256-entry table once one has
been installed, and through the built-in decoder otherwise. -/
def decodeByte (p : Parser) (b : Nat) : Char :=
  match p.table with
  | some m => Char.ofNat (m.getD b 0)
  | none => Char.ofNat b

/-- Feed raw bytes: each byte is decoded with the table in force at the
moment it is consumed, then drives the tokenizer. -/
def feedBytes (h : String → Option (List Nat)) (p : Parser) :
    List Nat → Parser × List XEvent
  | [] => (p, [])
  | b :: bs =>
    match feedChar h p (decodeByte p b) with
    | (p1, evs) =>
      match feedBytes h p1 bs with
      | (p2, evs2) => (p2, evs ++ evs2)

/-- Feed a sequence of raw-byte chunks one `write` at a time. -/
def writeBytesAll (h : String → Option (List Nat)) (p : Parser) :
    List (List Nat) → Parser × List XEvent
  | [] => (p, [])
  | bs :: rest =>
    match feedBytes h p bs with
    | (p1, evs) =>
      match writeBytesAll h p1 rest with
      | (p2, evs2) => (p2, evs ++ evs2)

/-- The bytes of an ASCII chunk. -/
def strBytes (s : String) : List Nat := s.data.map Char.toNat

/-- A caller that never supplies an unknown-encoding table. -/
def noTable : String → Option (List Nat) := fun _ => none

/-! ## Composition lemmas for incremental feeding -/

theorem feed_append (h : String → Option (List Nat)) (p : Parser) (a b : List Char) :
    feed h p (a ++ b) =
      ((feed h (feed h p a).1 b).1, (feed h p a).2 ++ (feed h (feed h p a).1 b).2) := by
  induction a generalizing p with
  | nil => simp [feed]
  | cons c cs ih => simp [feed, ih]

theorem writeAll_eq_concat (h : String → Option (List Nat)) (chunks : List String)
    (p : Parser) : writeAll h p chunks = writeStr h p (concatChunks chunks) := by
  induction chunks generalizing p with
  | nil => simp [writeAll, concatChunks, writeStr, feed]
  | cons s ss ih =>
    simp only [writeAll, concatChunks, writeStr, String.data_append, feed_append, ih]

/-! ## Claim theorems -/

/-- C1: for every document and every way of splitting it into non-empty
chunks, feeding the chunks one `write` at a time produces, after merging
adjacent text events, exactly the event sequence produced by feeding the
whole document as a single chunk. -/
theorem chunked_write_matches_single_write (h : String → Option (List Nat))
    (D : String) (chunks : List String)
    (hD : concatChunks chunks = D) (_hne : ∀ c ∈ chunks, c ≠ "") :
    collapseTexts (writeAll h initParser chunks).2 =
      collapseTexts (writeStr h initParser D).2 := by
  subst hD
  rw [writeAll_eq_concat]

theorem chunked_write_matches_single_write_witness :
    concatChunks ["<r>fo", "o</r", ">"] = "<r>foo</r>" ∧
    (∀ c ∈ ["<r>fo", "o</r", ">"], c ≠ "") ∧
    collapseTexts (writeAll noTable initParser ["<r>fo", "o</r", ">"]).2 =
      collapseTexts (writeStr noTable initParser "<r>foo</r>").2 :=
  ⟨by decide, by decide,
   chunked_write_matches_single_write noTable "<r>foo</r>" ["<r>fo", "o</r", ">"]
     (by decide) (by decide)⟩

/-- C3: `reset()` followed by parsing any document produces exactly the
event sequence that document would produce on a freshly constructed
parser, regardless of the prior run (successful, incomplete, or ended in
error). -/
theorem reset_then_parse_like_fresh (h : String → Option (List Nat))
    (prior : List String) (doc : String) :
    (writeStr h (reset (writeAll h initParser prior).1) doc).2 =
      (writeStr h initParser doc).2 := rfl

/-- The billion-laughs document of the entity-declaration test. -/
def billionLaughsDoc : String :=
  "<!DOCTYPE b [<!ELEMENT b (#PCDATA)>" ++
  "<!ENTITY l0 \"ha\"><!ENTITY l1 \"&l0;&l0;\"><!ENTITY l2 \"&l1;&l1;\">" ++
  "]><b>&l2;</b>"

set_option maxRecDepth 16384 in
/-- C4: declaring the entities `l0`, `l1`, `l2` and referencing `&l2;`
yields three entityDeclaration events in declaration order followed by the
collapsed text `hahahaha` — the recursive, depth-first, left-to-right
4-fold expansion. -/
theorem billion_laughs_events :
    collapseTexts (writeStr noTable initParser billionLaughsDoc).2 =
      [XEvent.entityDecl ("l0") false (some ("ha")) none none none none,
       XEvent.entityDecl ("l1") false (some ("&l0;&l0;")) none none none none,
       XEvent.entityDecl ("l2") false (some ("&l1;&l1;")) none none none none,
       XEvent.startElement ("b") [],
       XEvent.text ("hahahaha"),
       XEvent.endElement ("b")] := by decide

/-- C5: the position counters — line numbers 1, 2, 3 across two `"\n"`
writes; column numbers 0, 1, 2, 0 across two spaces and a line feed; byte
index -1 on a fresh parser, still -1 after an empty chunk, 1 after
consuming `"\n"`, and 2 after one more character. -/
theorem position_counters :
    getCurrentLineNumber initParser = 1 ∧
    getCurrentLineNumber (writeAll noTable initParser ["\n"]).1 = 2 ∧
    getCurrentLineNumber (writeAll noTable initParser ["\n", "\n"]).1 = 3 ∧
    getCurrentColumnNumber initParser = 0 ∧
    getCurrentColumnNumber (writeAll noTable initParser [" "]).1 = 1 ∧
    getCurrentColumnNumber (writeAll noTable initParser [" ", " "]).1 = 2 ∧
    getCurrentColumnNumber (writeAll noTable initParser [" ", " ", "\n"]).1 = 0 ∧
    getCurrentByteIndex initParser = -1 ∧
    getCurrentByteIndex (writeAll noTable initParser [""]).1 = -1 ∧
    getCurrentByteIndex (writeAll noTable initParser ["", "\n"]).1 = 1 ∧
    getCurrentByteIndex (writeAll noTable initParser ["", "\n", " "]).1 = 2 := by
  decide

/-- C7: an XML declaration produces a dedicated xmlDecl event — not a
processingInstruction event — carrying the version string, the encoding
name or none when absent, and a standalone flag that is true when the
attribute is omitted. -/
theorem xml_declaration_events :
    (writeStr noTable initParser ("<?xml version=\x271.0\x27?>")).2 =
      [XEvent.xmlDecl ("1.0") none true] ∧
    (writeStr noTable initParser
        ("<?xml version=\x271.0\x27 encoding=\x27UTF-8\x27?>")).2 =
      [XEvent.xmlDecl ("1.0") (some ("UTF-8")) true] := by decide

/-- C8: the input `<&` yields exactly one error event with the
malformed-token message, raised immediately at the offending byte (the
`&` produces the error as soon as it is consumed), reporting line 1,
column 1 and byte offset 1. -/
theorem ampersand_after_lt_error :
    (writeStr noTable initParser "<").2 = [] ∧
    (writeStr noTable (writeStr noTable initParser "<").1 "&").2 =
      [XEvent.error ("not well-formed (invalid token)")] ∧
    (writeStr noTable initParser "<&").2 =
      [XEvent.error ("not well-formed (invalid token)")] ∧
    getCurrentLineNumber (writeStr noTable initParser "<&").1 = 1 ∧
    getCurrentColumnNumber (writeStr noTable initParser "<&").1 = 1 ∧
    getCurrentByteIndex (writeStr noTable initParser "<&").1 = 1 := by decide

/-! ## The stream wrapper from `lib/node-expat.js` and its
snippet-building variant -/

/-- JavaScript index clamping used by `String.prototype.substring`. -/
def jsClamp (len : Nat) (i : Int) : Nat :=
  if i < 0 then 0 else if (len : Int) < i then len else i.toNat

/-- JavaScript `String.prototype.substring`: clamp both indices into the
string, swap them when given in reverse order. -/
def jsSubstring (s : String) (a b : Int) : String :=
  let x := jsClamp s.length a
  let y := jsClamp s.length b
  String.mk ((s.data.take (max x y)).drop (min x y))

/-- JavaScript `String.prototype.substr`: a negative start counts from the
end of the string; `len` characters are taken. -/
def jsSubstr (s : String) (start len : Int) : String :=
  let st : Nat := if start < 0 then ((s.length : Int) + start).toNat else start.toNat
  String.mk ((s.data.drop st).take len.toNat)

/-- The error object assembled by `getError` in the snippet-building
variant of the stream wrapper. -/
structure JsError where
  message : String
  code : String
  lineNumber : Int
  columnNumber : Int
  byteIndex : Int
  chunk : Option String
  deriving DecidableEq, Repr

/-- `XmlStream.ErrorCode.ERROR_XML_STREAM`. -/
def errorCodeXmlStream : String := "ERROR_XML_STREAM"

/-- `getError(chunk)` from the snippet-building variant: null when the
native parser reports no error message; otherwise an error carrying the
fixed code, the current line, column and byte index, and a context
snippet built from the current chunk around offset
`byteIndex - _byteIndex`. -/
def getError (msg? : Option String) (lineNumber columnNumber byteIndex : Int)
    (byteIndexAcc : Int) (chunkStr : String) : Option JsError :=
  match msg? with
  | none => none
  | some m =>
    let chunkIndex : Int := byteIndex - byteIndexAcc
    let snippet :=
      jsSubstring chunkStr chunkIndex (chunkIndex - 10) ++ (" --->") ++
        jsSubstr chunkStr chunkIndex 1 ++ ("<--- ") ++
        jsSubstr chunkStr (chunkIndex + 1) 100
    some { message := m, code := errorCodeXmlStream, lineNumber := lineNumber,
           columnNumber := columnNumber, byteIndex := byteIndex,
           chunk := some snippet }

/-- The stream wrapper state of `lib/node-expat.js`: the `destroyed` flag
of the Writable base class, the `_encoding` option and the underlying
native parser object (abstract). -/
structure StreamState (α : Type) where
  destroyed : Bool
  encoding : Option String
  parser : α
  deriving DecidableEq, Repr

/-- `parse` from `lib/node-expat.js`: false when destroyed, otherwise
delegate to the native parser; a failed native parse throws `getError`
(modelled as `none`). -/
def streamParse {α : Type} (nativeParse : α → String → Bool → Bool × α)
    (s : StreamState α) (buf : String) (isFinal : Bool) :
    Option Bool × StreamState α :=
  if s.destroyed = true then (some false, s)
  else
    let r := nativeParse s.parser buf isFinal
    if r.1 = true then (some true, { s with parser := r.2 })
    else (none, { s with parser := r.2 })

/-- `resume` from `lib/node-expat.js`. -/
def streamResume {α : Type} (nativeResume : α → Bool × α) (s : StreamState α) :
    Bool × StreamState α :=
  if s.destroyed = true then (false, s)
  else ((nativeResume s.parser).1, { s with parser := (nativeResume s.parser).2 })

/-- `pause` from `lib/node-expat.js` (delegating to the native `stop`). -/
def streamPause {α : Type} (nativeStop : α → Bool × α) (s : StreamState α) :
    Bool × StreamState α :=
  if s.destroyed = true then (false, s)
  else ((nativeStop s.parser).1, { s with parser := (nativeStop s.parser).2 })

/-- `reset` from `lib/node-expat.js`. -/
def streamReset {α : Type} (nativeReset : α → Bool × α) (s : StreamState α) :
    Bool × StreamState α :=
  if s.destroyed = true then (false, s)
  else ((nativeReset s.parser).1, { s with parser := (nativeReset s.parser).2 })

/-- `setEncoding` from `lib/node-expat.js`: also records `_encoding`. -/
def streamSetEncoding {α : Type} (nativeSetEncoding : α → String → Bool × α)
    (s : StreamState α) (e : String) : Bool × StreamState α :=
  if s.destroyed = true then (false, s)
  else ((nativeSetEncoding s.parser e).1,
        { s with encoding := some e, parser := (nativeSetEncoding s.parser e).2 })

/-- `setUnknownEncoding` from `lib/node-expat.js`. -/
def streamSetUnknownEncoding {α : Type} (nativeSet : α → List Nat → Bool × α)
    (s : StreamState α) (mp : List Nat) : Bool × StreamState α :=
  if s.destroyed = true then (false, s)
  else ((nativeSet s.parser mp).1, { s with parser := (nativeSet s.parser mp).2 })

/-- The snippet-building variant's wrapper state: `destroyed`, the native
parser, and the `_byteIndex` accumulator initialised to 0. -/
structure SnippetStream (α : Type) where
  destroyed : Bool
  parser : α
  byteIndexAcc : Nat
  deriving DecidableEq, Repr

/-- The constructor of the snippet-building variant: `_byteIndex = 0`. -/
def mkSnippetStream {α : Type} (p : α) : SnippetStream α :=
  { destroyed := false, parser := p, byteIndexAcc := 0 }

/-- `_parse` from the snippet-building variant: on success `_byteIndex`
advances by the chunk length; on failure `getError(chunk)` is thrown
(modelled as `none`) and `_byteIndex` is left unchanged. -/
def snippetParse {α : Type} (native : α → String → Bool → Bool × α)
    (s : SnippetStream α) (chunk : String) (isFinal : Bool) :
    Option Bool × SnippetStream α :=
  if s.destroyed = true then (some false, s)
  else
    let r := native s.parser chunk isFinal
    if r.1 = true then
      (some true,
       { s with parser := r.2, byteIndexAcc := s.byteIndexAcc + chunk.length })
    else (none, { s with parser := r.2 })

/-- Drive the snippet-building wrapper over a chunk sequence, recording
for each chunk whether its `_parse` call reported success. -/
def runSnippet {α : Type} (native : α → String → Bool → Bool × α)
    (s : SnippetStream α) : List String → SnippetStream α × List (String × Bool)
  | [] => (s, [])
  | c :: cs =>
    let r := snippetParse native s c false
    let rest := runSnippet native r.2 cs
    (rest.1, (c, r.1 == some true) :: rest.2)

/-- Total length of the successfully parsed chunks of a trace. -/
def goodLength (tr : List (String × Bool)) : Nat :=
  ((tr.filter (fun e => e.2)).map (fun e => e.1.length)).sum

theorem goodLength_cons (c : String) (b : Bool) (tr : List (String × Bool)) :
    goodLength ((c, b) :: tr) = (if b then c.length else 0) + goodLength tr := by
  cases b <;> simp [goodLength]

theorem snippetParse_acc {α : Type} (native : α → String → Bool → Bool × α)
    (s : SnippetStream α) (c : String) :
    (snippetParse native s c false).2.byteIndexAcc =
      s.byteIndexAcc +
        (if (snippetParse native s c false).1 == some true then c.length else 0) := by
  unfold snippetParse
  by_cases hd : s.destroyed = true
  · simp [hd]
  · by_cases hn : (native s.parser c false).1 = true
    · simp [hd, hn]
    · simp [hd, hn]

theorem runSnippet_acc {α : Type} (native : α → String → Bool → Bool × α)
    (chunks : List String) (s : SnippetStream α) :
    (runSnippet native s chunks).1.byteIndexAcc =
      s.byteIndexAcc + goodLength (runSnippet native s chunks).2 := by
  induction chunks generalizing s with
  | nil => simp [runSnippet, goodLength]
  | cons c cs ih =>
    simp only [runSnippet, goodLength_cons]
    rw [ih, snippetParse_acc]
    cases hb : (snippetParse native s c false).1 == some true <;>
      simp only [hb, if_true, if_false, Bool.false_eq_true, if_neg, reduceIte] <;> omega

/-- C2: a parse failure delivers an error carrying the fixed code
ERROR_XML_STREAM, the lineNumber, columnNumber and byteIndex fields, and
a context snippet of up to 10 characters before the failing byte and up
to 100 characters after it, with the failing byte itself delimited by
marker text on both sides. -/
theorem error_object_shape (m : String) (ln cl bi acc : Int) (chunkStr : String)
    (k : Nat) (hk : bi - acc = (k : Int)) (hlt : k < chunkStr.length) :
    getError (some m) ln cl bi acc chunkStr =
      some { message := m, code := ("ERROR_XML_STREAM"), lineNumber := ln,
             columnNumber := cl, byteIndex := bi,
             chunk := some (String.mk ((chunkStr.data.take k).drop (k - 10)) ++
               (" --->") ++ String.mk ((chunkStr.data.drop k).take 1) ++
               ("<--- ") ++ String.mk ((chunkStr.data.drop (k + 1)).take 100)) } := by
  have hlen : chunkStr.length = chunkStr.data.length := rfl
  have h1 : jsSubstring chunkStr (k : Int) ((k : Int) - 10) =
      String.mk ((chunkStr.data.take k).drop (k - 10)) := by
    have hx : jsClamp chunkStr.length (k : Int) = k := by
      unfold jsClamp
      split
      · omega
      · split <;> omega
    have hy : jsClamp chunkStr.length ((k : Int) - 10) = k - 10 := by
      unfold jsClamp
      split
      · omega
      · split <;> omega
    unfold jsSubstring
    rw [hx, hy]
    have hmax : max k (k - 10) = k := by omega
    have hmin : min k (k - 10) = k - 10 := by omega
    simp only [hmax, hmin]
  have h2 : jsSubstr chunkStr (k : Int) 1 =
      String.mk ((chunkStr.data.drop k).take 1) := by
    unfold jsSubstr
    have hst : (if (k : Int) < 0 then ((chunkStr.length : Int) + k).toNat
        else (k : Int).toNat) = k := by
      split <;> omega
    rw [hst]
    rfl
  have h3 : jsSubstr chunkStr ((k : Int) + 1) 100 =
      String.mk ((chunkStr.data.drop (k + 1)).take 100) := by
    unfold jsSubstr
    have hst : (if (k : Int) + 1 < 0 then ((chunkStr.length : Int) + ((k : Int) + 1)).toNat
        else ((k : Int) + 1).toNat) = k + 1 := by
      split <;> omega
    rw [hst]
    rfl
  simp only [getError, errorCodeXmlStream, hk, h1, h2, h3]

theorem error_object_shape_witness :
    ((1 : Int) - 0 = ((1 : Nat) : Int) ∧ 1 < ("<&").length) ∧
    getError (some ("not well-formed (invalid token)")) 1 1 1 0 "<&" =
      some { message := ("not well-formed (invalid token)"),
             code := ("ERROR_XML_STREAM"), lineNumber := 1, columnNumber := 1,
             byteIndex := 1, chunk := some ("< --->&<--- ") } := by
  refine ⟨⟨by decide, by decide⟩, ?_⟩
  rw [error_object_shape ("not well-formed (invalid token)") 1 1 1 0 "<&" 1
    (by decide) (by decide)]
  decide

/-- C9: every public operation of the stream wrapper returns false on a
destroyed stream without invoking the underlying parser (the result does
not depend on the native functions) and leaves the state unchanged. -/
theorem destroyed_operations_noop {α : Type} (s : StreamState α)
    (f1 : α → String → Bool → Bool × α) (f2 f3 f4 : α → Bool × α)
    (f5 : α → String → Bool × α) (f6 : α → List Nat → Bool × α)
    (buf : String) (isFinal : Bool) (e : String) (mp : List Nat)
    (hd : s.destroyed = true) :
    streamParse f1 s buf isFinal = (some false, s) ∧
    streamPause f2 s = (false, s) ∧
    streamResume f3 s = (false, s) ∧
    streamReset f4 s = (false, s) ∧
    streamSetEncoding f5 s e = (false, s) ∧
    streamSetUnknownEncoding f6 s mp = (false, s) := by
  simp [streamParse, streamPause, streamResume, streamReset,
        streamSetEncoding, streamSetUnknownEncoding, hd]

/-- A concrete destroyed wrapper state over a trivial native parser. -/
def destroyedStream : StreamState Nat :=
  { destroyed := true, encoding := none, parser := 0 }

theorem destroyed_operations_noop_witness :
    destroyedStream.destroyed = true ∧
    (streamParse (fun n _ _ => (true, n + 1)) destroyedStream "x" false =
        (some false, destroyedStream) ∧
     streamPause (fun n => (true, n + 1)) destroyedStream = (false, destroyedStream) ∧
     streamResume (fun n => (true, n + 1)) destroyedStream = (false, destroyedStream) ∧
     streamReset (fun n => (true, n + 1)) destroyedStream = (false, destroyedStream) ∧
     streamSetEncoding (fun n _ => (true, n + 1)) destroyedStream "UTF-8" =
        (false, destroyedStream) ∧
     streamSetUnknownEncoding (fun n _ => (true, n + 1)) destroyedStream [] =
        (false, destroyedStream)) :=
  ⟨rfl, destroyed_operations_noop destroyedStream (fun n _ _ => (true, n + 1))
    (fun n => (true, n + 1)) (fun n => (true, n + 1)) (fun n => (true, n + 1))
    (fun n _ => (true, n + 1)) (fun n _ => (true, n + 1)) "x" false "UTF-8" [] rfl⟩

/-- C10: in the snippet-building variant `_byteIndex` is 0 at
construction and advances by a chunk's length exactly when that chunk
parses successfully, so it always equals the total length of the
successfully parsed chunks; consequently `getError` locates the failing
character inside the current chunk at offset
`getCurrentByteIndex() - _byteIndex`. -/
theorem snippet_byteIndex_invariant {α : Type}
    (native : α → String → Bool → Bool × α) (p0 : α) (chunks : List String)
    (msg : String) (ln cl : Int) (chunkStr : String) (k : Nat)
    (hk : k < chunkStr.length) :
    (mkSnippetStream p0).byteIndexAcc = 0 ∧
    (runSnippet native (mkSnippetStream p0) chunks).1.byteIndexAcc =
      goodLength (runSnippet native (mkSnippetStream p0) chunks).2 ∧
    (∃ e, getError (some msg) ln cl
        (((runSnippet native (mkSnippetStream p0) chunks).1.byteIndexAcc : Int) + k)
        ((runSnippet native (mkSnippetStream p0) chunks).1.byteIndexAcc : Int)
        chunkStr = some e ∧
      e.byteIndex -
          ((runSnippet native (mkSnippetStream p0) chunks).1.byteIndexAcc : Int) =
        (k : Int) ∧
      e.chunk = some (jsSubstring chunkStr (k : Int) ((k : Int) - 10) ++ (" --->") ++
        String.mk [chunkStr.data.get ⟨k, hk⟩] ++ ("<--- ") ++
        jsSubstr chunkStr ((k : Int) + 1) 100)) := by
  refine ⟨rfl, ?_, ?_⟩
  · rw [runSnippet_acc]
    simp [mkSnippetStream]
  · have hsub : ∀ a : Nat, ((a : Int) + k) - (a : Int) = (k : Int) := by
      intro a; omega
    have hmid : jsSubstr chunkStr (k : Int) 1 =
        String.mk [chunkStr.data.get ⟨k, hk⟩] := by
      unfold jsSubstr
      have hst : (if (k : Int) < 0 then ((chunkStr.length : Int) + k).toNat
          else (k : Int).toNat) = k := by
        split <;> omega
      rw [hst]
      show String.mk ((chunkStr.data.drop k).take (Int.toNat 1)) =
        String.mk [chunkStr.data.get ⟨k, hk⟩]
      rw [List.drop_eq_getElem_cons (l := chunkStr.data) (n := k) hk]
      simp only [Int.toNat_one, List.take_succ_cons, List.take_zero, List.get_eq_getElem]
    refine ⟨_, rfl, ?_, ?_⟩
    · simp only [getError]
      exact hsub _
    · simp only [getError, hsub, hmid]

/-- A native stub failing exactly on the chunk `"!"`. -/
def bangFails : Nat → String → Bool → Bool × Nat :=
  fun n c _ => (c != ("!"), n)

theorem snippet_byteIndex_invariant_witness :
    (1 < ("<&").length ∧
     (runSnippet bangFails (mkSnippetStream (0 : Nat)) ["ab", "!", "cd"]).1.byteIndexAcc = 4) ∧
    ((mkSnippetStream (0 : Nat)).byteIndexAcc = 0 ∧
     (runSnippet bangFails (mkSnippetStream (0 : Nat)) ["ab", "!", "cd"]).1.byteIndexAcc =
       goodLength (runSnippet bangFails (mkSnippetStream (0 : Nat)) ["ab", "!", "cd"]).2 ∧
     (∃ e, getError (some ("boom")) 1 1
        (((runSnippet bangFails (mkSnippetStream (0 : Nat))
            ["ab", "!", "cd"]).1.byteIndexAcc : Int) + (1 : Nat))
        ((runSnippet bangFails (mkSnippetStream (0 : Nat))
            ["ab", "!", "cd"]).1.byteIndexAcc : Int) "<&" = some e ∧
      e.byteIndex -
          ((runSnippet bangFails (mkSnippetStream (0 : Nat))
              ["ab", "!", "cd"]).1.byteIndexAcc : Int) = ((1 : Nat) : Int) ∧
      e.chunk = some (jsSubstring "<&" ((1 : Nat) : Int) (((1 : Nat) : Int) - 10) ++
        (" --->") ++ String.mk [("<&").data.get ⟨1, by decide⟩] ++ ("<--- ") ++
        jsSubstr "<&" (((1 : Nat) : Int) + 1) 100))) :=
  ⟨⟨by decide, by decide⟩,
   snippet_byteIndex_invariant bangFails 0 ["ab", "!", "cd"] "boom" 1 1 "<&" 1 (by decide)⟩

/-! ## Unknown-encoding decoding (C6) -/

theorem toNat_ofNat_valid {n : Nat} (h : n.isValidChar) : (Char.ofNat n).toNat = n := by
  rw [Char.ofNat, dif_pos h]
  rfl

theorem ofNat_ne_char {n : Nat} (c : Char) (hv : n.isValidChar) (hne : n ≠ c.toNat) :
    Char.ofNat n ≠ c := by
  intro he
  apply hne
  rw [← toNat_ofNat_valid hv, he]

theorem stepChar_content_text (h : String → Option (List Nat)) (t : String)
    (rest : List String) (ents : List (String × String)) (tbl : Option (List Nat))
    (ln cl ps : Nat) (c : Char) (hlt : c ≠ '<') (hamp : c ≠ '&') :
    stepChar h ⟨TokState.content, t :: rest, ents, tbl, ln, cl, ps, false⟩ c =
      (⟨TokState.content, t :: rest, ents, tbl,
        if c = '\n' then ln + 1 else ln, if c = '\n' then 0 else cl + 1,
        ps + 1, false⟩, [XEvent.text (String.singleton c)]) := by
  simp [stepChar, adv, hlt, hamp]

/-- Feeding plain content bytes through a parser holding a decode table:
each byte becomes one text event holding the character the table maps it
to. -/
theorem content_bytes_run (h : String → Option (List Nat)) (m : List Nat)
    (t : String) (rest : List String) (ents : List (String × String))
    (bs : List Nat) :
    (∀ b ∈ bs, Char.ofNat (m.getD b 0) ≠ '<' ∧ Char.ofNat (m.getD b 0) ≠ '&') →
    ∀ ln cl ps : Nat, ∃ ln' cl' : Nat,
      feedBytes h ⟨TokState.content, t :: rest, ents, some m, ln, cl, ps, false⟩ bs =
        (⟨TokState.content, t :: rest, ents, some m, ln', cl', ps + bs.length, false⟩,
         bs.map (fun b => XEvent.text (String.singleton (Char.ofNat (m.getD b 0))))) := by
  induction bs with
  | nil =>
    intro _ ln cl ps
    exact ⟨ln, cl, by simp [feedBytes]⟩
  | cons b bs ih =>
    intro hok ln cl ps
    obtain ⟨hlt, hamp⟩ := hok b (by simp)
    have hok' : ∀ x ∈ bs, Char.ofNat (m.getD x 0) ≠ '<' ∧ Char.ofNat (m.getD x 0) ≠ '&' :=
      fun x hx => hok x (by simp [hx])
    obtain ⟨ln', cl', hrec⟩ := ih hok'
      (if Char.ofNat (m.getD b 0) = '\n' then ln + 1 else ln)
      (if Char.ofNat (m.getD b 0) = '\n' then 0 else cl + 1) (ps + 1)
    refine ⟨ln', cl', ?_⟩
    have hdec : decodeByte ⟨TokState.content, t :: rest, ents, some m, ln, cl, ps, false⟩ b =
        Char.ofNat (m.getD b 0) := rfl
    simp only [feedBytes, hdec]
    have hfc : feedChar h ⟨TokState.content, t :: rest, ents, some m, ln, cl, ps, false⟩
        (Char.ofNat (m.getD b 0)) =
        stepChar h ⟨TokState.content, t :: rest, ents, some m, ln, cl, ps, false⟩
          (Char.ofNat (m.getD b 0)) := rfl
    rw [hfc, stepChar_content_text h t rest ents (some m) ln cl ps _ hlt hamp, hrec]
    have hps : ps + 1 + bs.length = ps + (b :: bs).length := by simp; omega
    rw [hps]
    simp

/-- The XML declaration naming the unrecognized Windows-1252 encoding,
followed by the root start tag, as fed by the unknown-encoding test. -/
def w1252Decl : String := "<?xml version=\x271.0\x27 encoding=\x27Windows-1252\x27?>"

def w1252Header : String := w1252Decl ++ "<r>"

/-- The parser state after consuming the header: root element open, the
caller-supplied table installed. -/
def afterW1252Header (m : List Nat) : Parser :=
  ⟨TokState.content, ["r"], [], some m, 1, 48, 48, false⟩

theorem feedBytes_append (h : String → Option (List Nat)) (p : Parser)
    (a b : List Nat) :
    feedBytes h p (a ++ b) =
      ((feedBytes h (feedBytes h p a).1 b).1,
       (feedBytes h p a).2 ++ (feedBytes h (feedBytes h p a).1 b).2) := by
  induction a generalizing p with
  | nil => simp [feedBytes]
  | cons c cs ih => simp [feedBytes, ih]

set_option maxRecDepth 8192 in
set_option maxHeartbeats 1000000 in
theorem w1252_header_run (m : List Nat) (h60 : m.getD 60 0 = 60)
    (h114 : m.getD 114 0 = 114) (h62 : m.getD 62 0 = 62) :
    feedBytes (fun _ => some m) initParser (strBytes w1252Header) =
      (afterW1252Header m,
       [XEvent.xmlDecl ("1.0") (some ("Windows-1252")) true,
        XEvent.unknownEncoding ("Windows-1252"),
        XEvent.startElement ("r") []]) := by
  have c60 : Char.ofNat (m.getD 60 0) = '<' := by rw [h60]
  have c114 : Char.ofNat (m.getD 114 0) = 'r' := by rw [h114]
  have c62 : Char.ofNat (m.getD 62 0) = '>' := by rw [h62]
  have hsplit : strBytes w1252Header = strBytes w1252Decl ++ [60, 114, 62] := rfl
  rw [hsplit, feedBytes_append]
  have e1 : feedBytes (fun _ => some m) initParser (strBytes w1252Decl) =
      (⟨TokState.content, [], [], some m, 1, 45, 45, false⟩,
       [XEvent.xmlDecl ("1.0") (some ("Windows-1252")) true,
        XEvent.unknownEncoding ("Windows-1252")]) := rfl
  rw [e1]
  have d1 : decodeByte ⟨TokState.content, [], [], some m, 1, 45, 45, false⟩ 60 = '<' := by
    show Char.ofNat (m.getD 60 0) = '<'
    rw [h60]
  have f1 : feedChar (fun _ => some m) ⟨TokState.content, [], [], some m, 1, 45, 45, false⟩ '<' =
      (⟨TokState.sawLt, [], [], some m, 1, 46, 46, false⟩, []) := rfl
  have d2 : decodeByte ⟨TokState.sawLt, [], [], some m, 1, 46, 46, false⟩ 114 = 'r' := by
    show Char.ofNat (m.getD 114 0) = 'r'
    rw [h114]
  have f2 : feedChar (fun _ => some m) ⟨TokState.sawLt, [], [], some m, 1, 46, 46, false⟩ 'r' =
      (⟨TokState.startName ("r"), [], [], some m, 1, 47, 47, false⟩, []) := rfl
  have d3 : decodeByte ⟨TokState.startName ("r"), [], [], some m, 1, 47, 47, false⟩ 62 = '>' := by
    show Char.ofNat (m.getD 62 0) = '>'
    rw [h62]
  have f3 : feedChar (fun _ => some m)
      ⟨TokState.startName ("r"), [], [], some m, 1, 47, 47, false⟩ '>' =
      (⟨TokState.content, ["r"], [], some m, 1, 48, 48, false⟩,
       [XEvent.startElement ("r") []]) := rfl
  simp only [feedBytes, d1, f1, d2, f2, d3, f3, afterW1252Header]
  rfl

set_option maxRecDepth 8192 in
set_option maxHeartbeats 1000000 in
theorem w1252_footer_run (h : String → Option (List Nat)) (m : List Nat)
    (h60 : m.getD 60 0 = 60) (h47 : m.getD 47 0 = 47)
    (h114 : m.getD 114 0 = 114) (h62 : m.getD 62 0 = 62)
    (ents : List (String × String)) (ln cl ps : Nat) :
    feedBytes h ⟨TokState.content, ["r"], ents, some m, ln, cl, ps, false⟩
      (strBytes ("</r>")) =
      (⟨TokState.content, [], ents, some m, ln, cl + 4, ps + 4, false⟩,
       [XEvent.endElement ("r")]) := by
  have c60 : Char.ofNat (m.getD 60 0) = '<' := by rw [h60]
  have c47 : Char.ofNat (m.getD 47 0) = '/' := by rw [h47]
  have c114 : Char.ofNat (m.getD 114 0) = 'r' := by rw [h114]
  have c62 : Char.ofNat (m.getD 62 0) = '>' := by rw [h62]
  have hb : strBytes ("</r>") = [60, 47, 114, 62] := rfl
  rw [hb]
  have d1 : decodeByte ⟨TokState.content, ["r"], ents, some m, ln, cl, ps, false⟩ 60 = '<' := by
    show Char.ofNat (m.getD 60 0) = '<'
    rw [h60]
  have f1 : feedChar h ⟨TokState.content, ["r"], ents, some m, ln, cl, ps, false⟩ '<' =
      (⟨TokState.sawLt, ["r"], ents, some m, ln, cl + 1, ps + 1, false⟩, []) := rfl
  have d2 : decodeByte ⟨TokState.sawLt, ["r"], ents, some m, ln, cl + 1, ps + 1, false⟩ 47 =
      '/' := by
    show Char.ofNat (m.getD 47 0) = '/'
    rw [h47]
  have f2 : feedChar h ⟨TokState.sawLt, ["r"], ents, some m, ln, cl + 1, ps + 1, false⟩ '/' =
      (⟨TokState.endTagStart "", ["r"], ents, some m, ln, cl + 1 + 1, ps + 1 + 1, false⟩,
       []) := rfl
  have d3 : decodeByte
      ⟨TokState.endTagStart "", ["r"], ents, some m, ln, cl + 1 + 1, ps + 1 + 1, false⟩ 114 =
      'r' := by
    show Char.ofNat (m.getD 114 0) = 'r'
    rw [h114]
  have f3 : feedChar h
      ⟨TokState.endTagStart "", ["r"], ents, some m, ln, cl + 1 + 1, ps + 1 + 1, false⟩ 'r' =
      (⟨TokState.endTagStart ("r"), ["r"], ents, some m, ln, cl + 1 + 1 + 1,
        ps + 1 + 1 + 1, false⟩, []) := rfl
  have d4 : decodeByte
      ⟨TokState.endTagStart ("r"), ["r"], ents, some m, ln, cl + 1 + 1 + 1,
       ps + 1 + 1 + 1, false⟩ 62 = '>' := by
    show Char.ofNat (m.getD 62 0) = '>'
    rw [h62]
  have f4 : feedChar h
      ⟨TokState.endTagStart ("r"), ["r"], ents, some m, ln, cl + 1 + 1 + 1,
       ps + 1 + 1 + 1, false⟩ '>' =
      (⟨TokState.content, [], ents, some m, ln, cl + 4, ps + 4, false⟩,
       [XEvent.endElement ("r")]) := rfl
  simp only [feedBytes, d1, f1, d2, f2, d3, f3, d4, f4]
  rfl

/-- C6: when the encoding declaration names an encoding the engine cannot
decode natively, the caller is synchronously notified with the encoding
name; once the caller supplies a 256-entry byte-to-codepoint table from
within that notification, every subsequent raw byte is decoded to exactly
the codepoint the table maps it to — in particular any three raw byte
values decode to the three codepoints mapped for them. -/
theorem unknown_encoding_decodes_via_table (m : List Nat) (b1 b2 b3 : Nat)
    (_hlen : m.length = 256)
    (hv1 : (m.getD b1 0).isValidChar) (hv2 : (m.getD b2 0).isValidChar)
    (hv3 : (m.getD b3 0).isValidChar)
    (hb1 : m.getD b1 0 ≠ 60 ∧ m.getD b1 0 ≠ 38)
    (hb2 : m.getD b2 0 ≠ 60 ∧ m.getD b2 0 ≠ 38)
    (hb3 : m.getD b3 0 ≠ 60 ∧ m.getD b3 0 ≠ 38)
    (h60 : m.getD 60 0 = 60) (h47 : m.getD 47 0 = 47)
    (h114 : m.getD 114 0 = 114) (h62 : m.getD 62 0 = 62) :
    (writeBytesAll (fun _ => some m) initParser
        [strBytes w1252Header, [b1, b2, b3], strBytes ("</r>")]).2 =
      [XEvent.xmlDecl ("1.0") (some ("Windows-1252")) true,
       XEvent.unknownEncoding ("Windows-1252"),
       XEvent.startElement ("r") [],
       XEvent.text (String.singleton (Char.ofNat (m.getD b1 0))),
       XEvent.text (String.singleton (Char.ofNat (m.getD b2 0))),
       XEvent.text (String.singleton (Char.ofNat (m.getD b3 0))),
       XEvent.endElement ("r")] ∧
    (Char.ofNat (m.getD b1 0)).toNat = m.getD b1 0 ∧
    (Char.ofNat (m.getD b2 0)).toNat = m.getD b2 0 ∧
    (Char.ofNat (m.getD b3 0)).toNat = m.getD b3 0 := by
  have hlt60 : Char.toNat '<' = 60 := by decide
  have hlt38 : Char.toNat '&' = 38 := by decide
  have hok : ∀ b ∈ [b1, b2, b3],
      Char.ofNat (m.getD b 0) ≠ '<' ∧ Char.ofNat (m.getD b 0) ≠ '&' := by
    intro b hb
    simp only [List.mem_cons, List.not_mem_nil, or_false] at hb
    rcases hb with rfl | rfl | rfl
    · exact ⟨ofNat_ne_char '<' hv1 (by rw [hlt60]; exact hb1.1),
             ofNat_ne_char '&' hv1 (by rw [hlt38]; exact hb1.2)⟩
    · exact ⟨ofNat_ne_char '<' hv2 (by rw [hlt60]; exact hb2.1),
             ofNat_ne_char '&' hv2 (by rw [hlt38]; exact hb2.2)⟩
    · exact ⟨ofNat_ne_char '<' hv3 (by rw [hlt60]; exact hb3.1),
             ofNat_ne_char '&' hv3 (by rw [hlt38]; exact hb3.2)⟩
  refine ⟨?_, toNat_ofNat_valid hv1, toNat_ofNat_valid hv2, toNat_ofNat_valid hv3⟩
  obtain ⟨ln', cl', hmid⟩ :=
    content_bytes_run (fun _ => some m) m "r" [] [] [b1, b2, b3] hok 1 48 48
  have hlen3 : (48 : Nat) + ([b1, b2, b3] : List Nat).length = 51 := rfl
  rw [hlen3] at hmid
  simp only [writeBytesAll]
  rw [w1252_header_run m h60 h114 h62]
  rw [show afterW1252Header m =
    (⟨TokState.content, ["r"], [], some m, 1, 48, 48, false⟩ : Parser) from rfl]
  rw [hmid]
  rw [w1252_footer_run (fun _ => some m) m h60 h47 h114 h62 [] ln' cl' 51]
  simp

/-- The single-byte map of the unknownEncoding test: the identity map
except byte 128, mapped to the euro sign codepoint. -/
def w1252TestMap : List Nat :=
  (List.range 256).map (fun i => if i = 128 then 8364 else i)

set_option maxRecDepth 16384 in
theorem unknown_encoding_decodes_via_table_witness :
    w1252TestMap.length = 256 ∧
    ((writeBytesAll (fun _ => some w1252TestMap) initParser
        [strBytes w1252Header, [165, 128, 36], strBytes ("</r>")]).2 =
      [XEvent.xmlDecl ("1.0") (some ("Windows-1252")) true,
       XEvent.unknownEncoding ("Windows-1252"),
       XEvent.startElement ("r") [],
       XEvent.text (String.singleton (Char.ofNat (w1252TestMap.getD 165 0))),
       XEvent.text (String.singleton (Char.ofNat (w1252TestMap.getD 128 0))),
       XEvent.text (String.singleton (Char.ofNat (w1252TestMap.getD 36 0))),
       XEvent.endElement ("r")] ∧
     (Char.ofNat (w1252TestMap.getD 165 0)).toNat = w1252TestMap.getD 165 0 ∧
     (Char.ofNat (w1252TestMap.getD 128 0)).toNat = w1252TestMap.getD 128 0 ∧
     (Char.ofNat (w1252TestMap.getD 36 0)).toNat = w1252TestMap.getD 36 0) :=
  ⟨by decide,
   unknown_encoding_decodes_via_table w1252TestMap 165 128 36 (by decide) (by decide)
     (by decide) (by decide) (by decide) (by decide) (by decide) (by decide) (by decide)
     (by decide) (by decide)⟩

end NodeExpat
